/-
Verification of the RAG-pipeline core (chunker, embedder, ingest pipeline,
context assembly, task orchestration) of the Isha chatbot repository.

Texts are modelled as `List Char` (JS strings of ASCII content; one element
per UTF-16 code unit).  Numeric code is modelled over `Int`/`Nat`/`Rat`/`Real`
with floating-point arithmetic idealized as exact arithmetic; where an exact
threshold matters (the chunker's `chunkSize * 0.7`) the development uses the
exact rational `7 * chunkSize / 10`, which coincides with the IEEE-double
value of `chunkSize * 0.7` for every chunk size appearing in a concrete
theorem below (10, 20, 1000).
-/
import Mathlib

namespace Isha

/-! ## JS string primitives used by the chunker (src/unnamed/part_002, src/lib/parse-pdf.js) -/

/-- Model of `String.prototype.slice(s, e)` for `0 ≤ s ≤ e` (the only way it is called
in `createTextChunks`): the characters with indices in `[s, e)`. -/
def jsSlice (l : List Char) (s e : Nat) : List Char :=
  (l.take e).drop s

/-- Model of `String.prototype.lastIndexOf(c)` for a single character `c`:
the largest index holding `c`, or `-1` when `c` does not occur. -/
def jsLastIndexOf (l : List Char) (c : Char) : Int :=
  match l.reverse.findIdx? (fun x => x == c) with
  | some i => (l.length : Int) - 1 - (i : Int)
  | none => -1

/-- The whitespace test backing `String.prototype.trim` (ASCII fragment). -/
def jsIsWs (c : Char) : Bool :=
  c == ' ' || c == '\n' || c == '\t' || c == '\r'

/-- Model of `String.prototype.trim`: strip leading and trailing whitespace. -/
def jsTrim (l : List Char) : List Char :=
  ((l.dropWhile jsIsWs).reverse.dropWhile jsIsWs).reverse

/-! ## The chunker: `createTextChunks(text, chunkSize, overlap)`
(`src/unnamed/part_002` lines 218-279; `parsePDFChunks` in
`src/lib/parse-pdf.js` lines 85-125 inlines the identical loop). -/

/-- One record pushed onto `chunks`: the trimmed chunk text, the value of
`startIndex` at push time (the source pushes the already-updated cursor),
and the trimmed length. -/
structure ChunkRec where
  text : List Char
  startIndex : Nat
  length : Nat
deriving Repr, DecidableEq

/-- The source's break-point filter
`point => point > startIndex + chunkSize * 0.7`, over exact rationals:
`p > s + 7*cs/10` stated integrally.  (`point` is an index into the local
window `chunk` while `startIndex` is an absolute cursor; the source mixes
the two — this is embedded faithfully.) -/
def breakFilter (s cs : Nat) (p : Int) : Bool :=
  10 * p > 10 * (s : Int) + 7 * (cs : Int)

/-- The cut position chosen by one iteration of the `while` loop of
`createTextChunks` from cursor `s`: `endIndex` when the window reaches the
end of the text or no break point passes the filter, and `bestBreak + 1`
(with `bestBreak = Math.max(...breakPoints)`) otherwise.  In every branch
the source's chunk (before trimming) is `text.slice(startIndex, cut)` for
this cut value, so the step function below recovers it from the position. -/
def chunkCutPos (text : List Char) (cs : Nat) (s : Nat) : Nat :=
  let e := min (s + cs) text.length
  if e < text.length then
    let chunk0 := jsSlice text s e
    let bps := ([jsLastIndexOf chunk0 '.', jsLastIndexOf chunk0 '?',
                 jsLastIndexOf chunk0 '!', jsLastIndexOf chunk0 '\n']).filter
                (breakFilter s cs)
    match bps with
    | [] => e
    | b :: bs => (bs.foldl max b + 1).toNat
  else e

/-- One iteration of the `while` loop of `createTextChunks`, starting from
cursor `s < text.length`: returns the cursor for the next iteration (after
the conditional overlap step-back, where `Math.max(0, x - overlap)` is
truncated subtraction) and the record pushed, if any. -/
def chunkStep (text : List Char) (cs ov : Nat) (s : Nat) : Nat × Option ChunkRec :=
  let c := chunkCutPos text cs s
  let chunk := jsTrim (jsSlice text s c)
  let rcd : Option ChunkRec :=
    if chunk.length > 0 then some ⟨chunk, c, chunk.length⟩ else none
  let s2 := if c < text.length then c - ov else c
  (s2, rcd)

/-- The cursor transition of the loop: apply `chunkStep` while the loop
guard `startIndex < text.length` holds, otherwise stay put. -/
def cursorStep (text : List Char) (cs ov : Nat) (s : Nat) : Nat :=
  if s < text.length then (chunkStep text cs ov s).1 else s

/-- The cursor after `n` loop iterations (the loop starts at 0). -/
def cursorIter (text : List Char) (cs ov : Nat) : Nat → Nat
  | 0 => 0
  | n + 1 => cursorStep text cs ov (cursorIter text cs ov n)

/-- The loop of `createTextChunks`, run on explicit fuel; `none` means the
fuel was exhausted before the loop guard failed. -/
def chunkLoop (text : List Char) (cs ov : Nat) :
    Nat → Nat → List ChunkRec → Option (List ChunkRec)
  | 0, _, _ => none
  | n + 1, s, acc =>
    if s < text.length then
      let st := chunkStep text cs ov s
      chunkLoop text cs ov n st.1 (acc ++ st.2.toList)
    else some acc

/-- Model of `createTextChunks(text, chunkSize, overlap)` (the produced chunk list),
run on explicit fuel. -/
def createTextChunksRun (text : List Char) (cs ov fuel : Nat) : Option (List ChunkRec) :=
  chunkLoop text cs ov fuel 0 []

/-! ### Chunker lemmas -/

/-- The seed of `List.foldl max` is a lower bound of the fold. -/
lemma le_foldl_max (bs : List Int) (b : Int) : b ≤ bs.foldl max b := by
  induction bs generalizing b with
  | nil => exact le_refl b
  | cons a as ih => exact le_trans (le_max_left b a) (ih (max b a))

/-- Under `0 < chunkSize` and `overlap ≤ ⌊0.7 · chunkSize⌋`, a loop iteration
started strictly inside the text cuts either at the end of the text or at
least `overlap + 1` characters beyond the cursor. -/
lemma chunkCutPos_progress (text : List Char) (cs ov s : Nat)
    (_hs : s < text.length) (hcs : 0 < cs) (hov : 10 * ov ≤ 7 * cs) :
    chunkCutPos text cs s = text.length ∨ s + ov + 1 ≤ chunkCutPos text cs s := by
  unfold chunkCutPos
  dsimp only
  by_cases hlt : min (s + cs) text.length < text.length
  · simp only [if_pos hlt]
    rcases hbp : ([jsLastIndexOf (jsSlice text s (min (s + cs) text.length)) '.',
        jsLastIndexOf (jsSlice text s (min (s + cs) text.length)) '?',
        jsLastIndexOf (jsSlice text s (min (s + cs) text.length)) '!',
        jsLastIndexOf (jsSlice text s (min (s + cs) text.length)) '\n']).filter
        (breakFilter s cs) with _ | ⟨b, bs⟩
    · right
      dsimp only
      omega
    · have hbmem : b ∈ ([jsLastIndexOf (jsSlice text s (min (s + cs) text.length)) '.',
          jsLastIndexOf (jsSlice text s (min (s + cs) text.length)) '?',
          jsLastIndexOf (jsSlice text s (min (s + cs) text.length)) '!',
          jsLastIndexOf (jsSlice text s (min (s + cs) text.length)) '\n']).filter
          (breakFilter s cs) := by
        rw [hbp]; exact List.mem_cons_self _ _
      have hbf : breakFilter s cs b = true := List.of_mem_filter hbmem
      have hb : 10 * b > 10 * (s : Int) + 7 * (cs : Int) := by
        unfold breakFilter at hbf
        exact of_decide_eq_true hbf
      have hfold := le_foldl_max bs b
      right
      dsimp only
      omega
  · left
    rw [if_neg hlt]
    omega

/-- Under `0 < chunkSize` and `overlap ≤ ⌊0.7 · chunkSize⌋`, the loop cursor
strictly advances from any position inside the text. -/
lemma cursorStep_progress (text : List Char) (cs ov s : Nat)
    (hs : s < text.length) (hcs : 0 < cs) (hov : 10 * ov ≤ 7 * cs) :
    s + 1 ≤ cursorStep text cs ov s := by
  unfold cursorStep
  rw [if_pos hs]
  show s + 1 ≤ (chunkStep text cs ov s).1
  unfold chunkStep
  dsimp only
  rcases chunkCutPos_progress text cs ov s hs hcs hov with h | h
  · rw [h]
    simp only [lt_self_iff_false, if_false]
    omega
  · split <;> omega

/-- When the cursor has already reached the text length, the loop guard
fails and the cursor no longer moves. -/
lemma cursorStep_of_done (text : List Char) (cs ov s : Nat)
    (h : text.length ≤ s) : cursorStep text cs ov s = s := by
  unfold cursorStep
  rw [if_neg (not_lt.mpr h)]

/-! ### Claim theorems about the chunker -/

/-- The failing input for claim C1: thirty characters with a sentence
terminator at absolute index 18 (`"aaaaaaaaaa" ++ "aaaaaaaa.a" ++
"aaaaaaaaaa"`). -/
def c1text : List Char := ("aaaaaaaaaa" ++ "aaaaaaaa.a" ++ "aaaaaaaaaa").toList

/-- C1.  With `chunkSize = 10, overlap = 0` on `c1text`, the second window
`text[10..20)` does not reach the end of the text and holds `'.'` at
window-relative index 8 — inside the last 30% of the window
(`8 > 0.7 · 10`) — so the claim requires the second chunk to be cut right
after the `'.'` (absolute index 18, chunk `"aaaaaaaa."`).  The code instead
compares the window-relative index 8 against `startIndex + 0.7·chunkSize
= 17` and hard-cuts at 20, producing the mid-sentence chunk
`"aaaaaaaa.a"`: the sentence-boundary preference is dead for every window
that starts deeper than `0.3 · chunkSize` into the text, contradicting the
code's own comment "Only break if it's in the last 30% of chunk". -/
theorem C1_sentence_cut_ignored :
    jsLastIndexOf (jsSlice c1text 10 (10 + 10)) '.' = 8 ∧
    (10 : Int) * 8 > 7 * 10 ∧
    createTextChunksRun c1text 10 0 100 =
      some [⟨"aaaaaaaaaa".toList, 10, 10⟩, ⟨"aaaaaaaa.a".toList, 20, 10⟩,
            ⟨"aaaaaaaaaa".toList, 30, 10⟩] := by
  refine ⟨by decide, by decide, by decide⟩

/-- C2 counterexample.  With `chunkSize = 1 ≤ overlap = 1` the call is not
rejected: no parameter validation exists in `createTextChunks` or
`parseDocumentChunks`, and on the one-character text `"h"` the loop
terminates successfully with one chunk instead of failing with a
`ConfigError`. -/
theorem C2_not_rejected :
    (1 : Nat) ≤ 1 ∧
    createTextChunksRun "h".toList 1 1 3 = some [⟨"h".toList, 1, 1⟩] := by
  exact ⟨le_refl 1, by decide⟩

/-- C2 amended.  `createTextChunks` performs no `chunkSize ≤ overlap`
validation: whenever the text fits in a single window the call succeeds
outright (one trimmed chunk, or none when the text is all whitespace),
even with `chunkSize ≤ overlap`. -/
theorem C2_no_validation (text : List Char) (cs ov : Nat)
    (_hcs : cs ≤ ov) (h0 : 0 < text.length) (hfit : text.length ≤ cs) :
    createTextChunksRun text cs ov 2 =
      some (if 0 < (jsTrim text).length
            then [⟨jsTrim text, text.length, (jsTrim text).length⟩]
            else []) := by
  have hmin : min (0 + cs) text.length = text.length := by omega
  have hcut : chunkCutPos text cs 0 = text.length := by
    unfold chunkCutPos
    rw [hmin, if_neg (lt_irrefl text.length)]
  have hslice : jsSlice text 0 text.length = text := by
    unfold jsSlice
    rw [List.take_length, List.drop_zero]
  unfold createTextChunksRun chunkLoop
  rw [if_pos h0]
  unfold chunkStep
  rw [hcut]
  dsimp only
  rw [hslice]
  simp only [lt_self_iff_false, if_false]
  unfold chunkLoop
  rw [if_neg (lt_irrefl text.length)]
  split
  · rfl
  · rfl

/-- C2 amended, witness: `chunkSize = 1 ≤ overlap = 1` on `"h"`. -/
theorem C2_no_validation_witness :
    createTextChunksRun "h".toList 1 1 2 =
      some (if 0 < (jsTrim "h".toList).length
            then [⟨jsTrim "h".toList, "h".toList.length, (jsTrim "h".toList).length⟩]
            else []) :=
  C2_no_validation "h".toList 1 1 (le_refl 1) (by decide) (by decide)

/-- The non-terminating input for claim C3: a `'.'` at index 8 of a
21-character text. -/
def c3text : List Char := "aaaaaaaa.aaaaaaaaaaaa".toList

/-- C3 counterexample.  With `chunkSize = 10 > overlap = 9 ≥ 0` on
`c3text`, the loop never terminates: the first window cuts after the `'.'`
(cursor 9) and the overlap step-back returns the cursor to 0, a fixed
point, so the cursor never reaches the text length. -/
theorem C3_nontermination :
    9 < 10 ∧ ¬ ∃ n, c3text.length ≤ cursorIter c3text 10 9 n := by
  refine ⟨by decide, ?_⟩
  rintro ⟨n, hn⟩
  have h0 : ∀ m, cursorIter c3text 10 9 m = 0 := by
    intro m
    induction m with
    | zero => rfl
    | succ k ih =>
      show cursorStep c3text 10 9 (cursorIter c3text 10 9 k) = 0
      rw [ih]
      decide
  rw [h0 n] at hn
  exact absurd hn (by decide)

/-- C3 amended.  The chunking loop terminates for every text whenever
`0 < chunkSize` and `overlap ≤ ⌊0.7 · chunkSize⌋` (`10·overlap ≤
7·chunkSize`; this covers the default configuration 1000/200): each
iteration then advances the cursor by at least one, so it reaches the text
length within `text.length` iterations.  `chunkSize > overlap` alone is
not sufficient (see the counterexample). -/
theorem C3_termination (text : List Char) (cs ov : Nat)
    (hcs : 0 < cs) (hov : 10 * ov ≤ 7 * cs) :
    ∃ n, text.length ≤ cursorIter text cs ov n := by
  refine ⟨text.length, ?_⟩
  have key : ∀ n, text.length ≤ cursorIter text cs ov n ∨ n ≤ cursorIter text cs ov n := by
    intro n
    induction n with
    | zero => exact Or.inr (Nat.zero_le _)
    | succ k ih =>
      by_cases hlen : text.length ≤ cursorIter text cs ov k
      · left
        show text.length ≤ cursorStep text cs ov (cursorIter text cs ov k)
        rw [cursorStep_of_done text cs ov _ hlen]
        exact hlen
      · have hprog := cursorStep_progress text cs ov (cursorIter text cs ov k)
          (Nat.lt_of_not_le hlen) hcs hov
        rcases ih with h | h
        · exact absurd h hlen
        · right
          show k + 1 ≤ cursorStep text cs ov (cursorIter text cs ov k)
          omega
  rcases key text.length with h | h
  · exact h
  · exact h

/-- C3 amended, witness: `chunkSize = 2, overlap = 0` on `"ab"`. -/
theorem C3_termination_witness :
    (0 < 2 ∧ 10 * 0 ≤ 7 * 2) ∧
      ∃ n, ("ab".toList).length ≤ cursorIter "ab".toList 2 0 n :=
  ⟨⟨by decide, by decide⟩, C3_termination "ab".toList 2 0 (by decide) (by decide)⟩

/-- C8.  The chunker is a pure function of its inputs: two runs on the same
text, parameters and fuel return the same chunk list (hence identical
boundaries and chunk texts).  The source loop reads no ambient state
(no clock, randomness or I/O), which the embedding reflects by depending
only on the arguments. -/
theorem C8_chunker_deterministic (text : List Char) (cs ov fuel : Nat)
    (r1 r2 : Option (List ChunkRec))
    (h1 : r1 = createTextChunksRun text cs ov fuel)
    (h2 : r2 = createTextChunksRun text cs ov fuel) :
    r1 = r2 :=
  h1.trans h2.symm

/-- C8 witness: two runs on the example text of §8 coincide. -/
theorem C8_chunker_deterministic_witness :
    createTextChunksRun "A cat sat. A dog ran. The sun rose.".toList 20 5 100 =
      createTextChunksRun "A cat sat. A dog ran. The sun rose.".toList 20 5 100 :=
  C8_chunker_deterministic _ 20 5 100 _ _ rfl rfl

/-! ## Embedder: `LocalEmbeddings` (src/lib/embeddings.js)

Floating-point numbers are idealized as exact reals (`Math.sin` becomes
`Real.sin`, `Math.sqrt` becomes `Real.sqrt`); the ±1e-6 tolerances in the
spec exist to absorb exactly this rounding difference. -/

/-- Model of `text.toLowerCase().replace(/[^a-z0-9\s]/g, '')`: lowercase, then keep
only lowercase letters, digits and whitespace (ASCII fragment of `\s`). -/
def normalizeText (l : List Char) : List Char :=
  (l.map Char.toLower).filter
    (fun c => (('a' ≤ c && c ≤ 'z') || c.isDigit) || jsIsWs c)

/-- Model of `String.prototype.split` on a regex matching runs of characters
satisfying `p` (such as `/\s+/` or `/[.!?]+/`): the pieces between maximal
separator runs, including an empty leading (resp. trailing) piece when the
string starts (resp. ends) with a separator.  The result is never empty. -/
def splitRunsAux (p : Char → Bool) : List Char → List Char → Bool → List (List Char)
  | [], cur, _ => [cur.reverse]
  | c :: rest, cur, inSep =>
    if p c then
      if inSep then splitRunsAux p rest cur true
      else cur.reverse :: splitRunsAux p rest [] true
    else splitRunsAux p rest (c :: cur) false

/-- Model of `l.split(p-runs)`; see `splitRunsAux`. -/
def splitRuns (p : Char → Bool) (l : List Char) : List (List Char) :=
  splitRunsAux p l [] false

/-- The sentence-terminator class `[.!?]` of the sentence-count feature. -/
def isSentencePunct (c : Char) : Bool :=
  c == '.' || c == '!' || c == '?'

/-- Two's-complement wrap to a signed 32-bit integer (the JS `|`, `&` and
`<<` coercion `ToInt32`). -/
def wrap32 (x : Int) : Int :=
  (x + 2 ^ 31) % 2 ^ 32 - 2 ^ 31

/-- Model of `hashCode(str)`: the JS loop
`hash = ((hash << 5) - hash) + charCode; hash = hash & hash` followed by
`Math.abs`.  `hash << 5` coerces to int32 and shifts (wrapping), the
subtraction and addition are exact in doubles at this magnitude, and
`hash & hash` wraps the result back to int32. -/
def jsHash (l : List Char) : Int :=
  (l.foldl (fun h c => wrap32 (wrap32 (h * 32) - h + (c.toNat : Int))) 0).natAbs

/-- The 12 `commonWords` of the stop-word features. -/
def commonWords : List String :=
  ["the", "and", "or", "but", "in", "on", "at", "to", "for", "of", "with", "by"]

/-- Sum of squares of a list (the `reduce((sum, val) => sum + val*val, 0)`
of the source). -/
noncomputable def sumSq (l : List ℝ) : ℝ :=
  (l.map (fun x => x * x)).sum

/-- Euclidean norm of a list of reals. -/
noncomputable def l2norm (l : List ℝ) : ℝ :=
  Real.sqrt (sumSq l)

/-- The 384-entry feature vector of `createSimpleEmbedding` before the
final normalization: 26 letter frequencies, 3 shape features, 12 stop-word
frequencies, and 343 sine-filler entries seeded by `hashCode`.
The stop-word count `(normalizedText.match(/\bw\b/g) || []).length` is the
number of whitespace-split pieces equal to `w`: the normalized text
consists of word characters `[a-z0-9]` and whitespace only, so `\b`
matches exactly at the whitespace boundaries and the string ends. -/
noncomputable def rawEmbedding (text : List Char) : List ℝ :=
  let n := normalizeText text
  let denom : ℝ := ((max 1 n.length : Nat) : ℝ)
  let words := splitRuns jsIsWs n
  let charFreqs := (List.range 26).map
    (fun i => ((n.count (Char.ofNat (97 + i)) : ℝ)) / denom)
  let lenFeat : ℝ := min 1 ((n.length : ℝ) / 1000)
  let wordFeat : ℝ := (words.length : ℝ) / 100
  let sentFeat : ℝ := ((splitRuns isSentencePunct n).length : ℝ) / 10
  let stopFeats := commonWords.map
    (fun w => ((words.count w.toList : ℝ)) / ((max 1 words.length : Nat) : ℝ))
  let fillers := (List.range (384 - 41)).map
    (fun i => Real.sin ((jsHash n : ℝ) + ((41 + i : Nat) : ℝ)) * 0.5 + 0.5)
  charFreqs ++ [lenFeat, wordFeat, sentFeat] ++ stopFeats ++ fillers

/-- Model of `createSimpleEmbedding(text)`: the raw feature vector divided by its
Euclidean magnitude. -/
noncomputable def createSimpleEmbedding (text : List Char) : List ℝ :=
  (rawEmbedding text).map (fun x => x / l2norm (rawEmbedding text))

/-! ### Embedder lemmas -/

lemma sumSq_nonneg (l : List ℝ) : 0 ≤ sumSq l := by
  induction l with
  | nil => simp [sumSq]
  | cons a l ih =>
    simp only [sumSq, List.map_cons, List.sum_cons] at *
    exact add_nonneg (mul_self_nonneg a) ih

lemma sq_le_sumSq {x : ℝ} {l : List ℝ} (h : x ∈ l) : x * x ≤ sumSq l := by
  induction l with
  | nil => exact absurd h (List.not_mem_nil x)
  | cons a l ih =>
    simp only [sumSq, List.map_cons, List.sum_cons]
    rcases List.mem_cons.mp h with rfl | hmem
    · have := sumSq_nonneg l
      simp only [sumSq] at this
      linarith
    · have := ih hmem
      simp only [sumSq] at this
      have ha := mul_self_nonneg a
      linarith

lemma sumSq_map_div (l : List ℝ) (m : ℝ) :
    sumSq (l.map (fun x => x / m)) = sumSq l / (m * m) := by
  induction l with
  | nil => simp [sumSq]
  | cons a l ih =>
    simp only [sumSq, List.map_cons, List.sum_cons] at *
    rw [ih, div_mul_div_comm, add_div]

/-- Dividing a list with positive sum of squares by its Euclidean norm
yields a unit vector. -/
lemma l2norm_normalize (l : List ℝ) (h : 0 < sumSq l) :
    l2norm (l.map (fun x => x / l2norm l)) = 1 := by
  unfold l2norm
  rw [sumSq_map_div, Real.mul_self_sqrt (le_of_lt h), div_self (ne_of_gt h),
    Real.sqrt_one]

lemma splitRunsAux_length_pos (p : Char → Bool) :
    ∀ (l cur : List Char) (inSep : Bool), 0 < (splitRunsAux p l cur inSep).length := by
  intro l
  induction l with
  | nil => intro cur inSep; simp [splitRunsAux]
  | cons c rest ih =>
    intro cur inSep
    unfold splitRunsAux
    by_cases hc : p c
    · by_cases hsep : inSep
      · simpa [hc, hsep] using ih cur true
      · simp [hc, hsep]
    · simpa [hc] using ih (c :: cur) false

/-- The split of a string on whitespace runs always has at least one piece
(JS `"".split(/\s+/)` is `[""]`). -/
lemma splitRuns_length_pos (p : Char → Bool) (l : List Char) :
    0 < (splitRuns p l).length :=
  splitRunsAux_length_pos p l [] false

/-- The word-count feature sits in the raw vector. -/
lemma wordFeat_mem_rawEmbedding (text : List Char) :
    (((splitRuns jsIsWs (normalizeText text)).length : ℝ) / 100) ∈ rawEmbedding text := by
  unfold rawEmbedding
  refine List.mem_append_left _ (List.mem_append_left _ (List.mem_append_right _ ?_))
  simp

lemma rawEmbedding_sumSq_pos (text : List Char) : 0 < sumSq (rawEmbedding text) := by
  have hW : 0 < ((splitRuns jsIsWs (normalizeText text)).length : ℝ) := by
    exact_mod_cast splitRuns_length_pos jsIsWs (normalizeText text)
  have hwf : 0 < ((splitRuns jsIsWs (normalizeText text)).length : ℝ) / 100 := by
    positivity
  calc (0 : ℝ) < (((splitRuns jsIsWs (normalizeText text)).length : ℝ) / 100) *
        (((splitRuns jsIsWs (normalizeText text)).length : ℝ) / 100) := by positivity
    _ ≤ sumSq (rawEmbedding text) := sq_le_sumSq (wordFeat_mem_rawEmbedding text)

lemma rawEmbedding_length (text : List Char) : (rawEmbedding text).length = 384 := by
  unfold rawEmbedding
  simp [commonWords]

/-- C7.  Every produced embedding has the fixed dimension 384, and its
L2 norm is exactly 1 in the exact-real model (hence within the claimed
1e-6 of 1): the raw vector's word-count feature is at least 1/100 — the
whitespace split always has at least one piece — so the magnitude is
positive and the final division by it normalizes the vector.  This holds
for every string, in particular every one accepted by `embedText` (which
additionally rejects empty input). -/
theorem C7_embedding_normalized (text : List Char) :
    (createSimpleEmbedding text).length = 384 ∧
    |l2norm (createSimpleEmbedding text) - 1| ≤ 1 / 1000000 := by
  constructor
  · unfold createSimpleEmbedding
    rw [List.length_map]
    exact rawEmbedding_length text
  · unfold createSimpleEmbedding
    rw [l2norm_normalize _ (rawEmbedding_sumSq_pos text)]
    norm_num

/-! ## `similarity(embedding1, embedding2)` (src/lib/embeddings.js 144-177) -/

/-- The error outcomes of `similarity`. -/
inductive SimError where
  | missingInput
  | dimensionMismatch
deriving Repr, DecidableEq

/-- The accumulated dot product of the source's index loop. -/
noncomputable def dotP (a b : List ℝ) : ℝ :=
  ((a.zip b).map (fun p => p.1 * p.2)).sum

/-- Model of `dotProduct / (Math.sqrt(norm1) * Math.sqrt(norm2))`. -/
noncomputable def cosineSim (a b : List ℝ) : ℝ :=
  dotP a b / (Real.sqrt (sumSq a) * Real.sqrt (sumSq b))

/-- Model of `Math.max(0, Math.min(1, x))`. -/
noncomputable def clamp01 (x : ℝ) : ℝ :=
  max 0 (min 1 x)

/-- Model of `similarity(embedding1, embedding2)`: `none` models a missing
(null/undefined, hence falsy) argument; arrays are always truthy. -/
noncomputable def similarity (e1 e2 : Option (List ℝ)) : Except SimError ℝ :=
  match e1, e2 with
  | none, _ => .error .missingInput
  | _, none => .error .missingInput
  | some a, some b =>
    if a.length ≠ b.length then .error .dimensionMismatch
    else .ok (clamp01 (cosineSim a b))

/-- C6.  `similarity` fails with the missing-input error when either
argument is absent, fails with the dimension-mismatch error when the
lengths differ, and otherwise succeeds with the cosine similarity clamped
to `[0, 1]` (the clamped value always lies in that interval). -/
theorem C6_similarity_spec :
    (∀ e2, similarity none e2 = .error .missingInput) ∧
    (∀ e1, similarity e1 none = .error .missingInput) ∧
    (∀ a b : List ℝ, a.length ≠ b.length →
      similarity (some a) (some b) = .error .dimensionMismatch) ∧
    (∀ a b : List ℝ, a.length = b.length →
      similarity (some a) (some b) = .ok (clamp01 (cosineSim a b)) ∧
      0 ≤ clamp01 (cosineSim a b) ∧ clamp01 (cosineSim a b) ≤ 1) := by
  refine ⟨fun e2 => by cases e2 <;> rfl, fun e1 => ?_, fun a b h => ?_, fun a b h => ?_⟩
  · cases e1 <;> rfl
  · simp [similarity, h]
  · refine ⟨by simp [similarity, h], le_max_left 0 _, ?_⟩
    exact max_le (by norm_num) (min_le_left 1 _)

/-- C6 witness: concrete instances of all three behaviours. -/
theorem C6_similarity_spec_witness :
    similarity (some [(1 : ℝ)]) none = .error .missingInput ∧
    similarity (some [(1 : ℝ)]) (some [1, 0]) = .error .dimensionMismatch ∧
    similarity (some [(1 : ℝ), 0]) (some [1, 0]) =
      .ok (clamp01 (cosineSim [1, 0] [1, 0])) :=
  ⟨C6_similarity_spec.2.1 (some [1]),
   C6_similarity_spec.2.2.1 [1] [1, 0] (by decide),
   (C6_similarity_spec.2.2.2 [1, 0] [1, 0] rfl).1⟩

/-! ## RAG ingest pipeline: `addDocumentToKnowledgeBase`
(src/unnamed/part_001 lines 205-260) -/

/-- Model of `embedText(text)` (src/lib/embeddings.js 22-47): rejects falsy input —
the empty string — and otherwise returns the simple embedding. -/
noncomputable def embedText (t : List Char) : Option (List ℝ) :=
  if t = [] then none else some (createSimpleEmbedding t)

/-- Model of `embedBatch(texts)` (src/lib/embeddings.js 108-142): fails outright on
an empty array; otherwise embeds each text in order, recording `none`
(JS `null`) for a per-item failure. -/
noncomputable def embedBatch (texts : List (List Char)) : Option (List (Option (List ℝ))) :=
  if texts = [] then none else some (texts.map embedText)

/-- A parsed document chunk as handed to `addDocumentToKnowledgeBase`
(id and file metadata were attached by `parseDocumentChunks`). -/
structure DocChunk where
  id : String
  text : List Char
  filename : Option String
deriving Repr, DecidableEq

/-- An item prepared for `chromaVectorStore.addDocuments`. -/
structure StoreDoc where
  id : String
  text : List Char
  embedding : Option (List ℝ)
  filename : Option String

/-- The failure modes of the ingest pipeline:
`'Invalid document chunks provided'` (the RAG-side guard),
a failed batch embedding, and the store-side
`'Invalid documents array'` and `'No valid documents to add'` throws. -/
inductive IngestError where
  | invalidChunks
  | embeddingFailed
  | invalidDocumentsArray
  | noValidDocuments
deriving Repr, DecidableEq

/-- The item-validity test of the loop in
`chromaVectorStore.addDocuments`: a document is skipped (with a warning)
when `!doc.id || !doc.text || !doc.embedding` — an empty string id or
text is falsy, a `null` embedding is falsy, while a present (even empty)
embedding array is truthy. -/
def validDoc (d : StoreDoc) : Bool :=
  d.id != "" && d.text != [] && d.embedding.isSome

/-- Model of `chromaVectorStore.addDocuments(documents)` (the
`ChromaVectorStore` class, bundled as the second concatenated segment of
`src/env.example`): an empty input array fails with
`Error('Invalid documents array')`; the loop skips invalid items; if no
valid item remains it fails with `Error('No valid documents to add')`;
otherwise the valid items are handed to the external Chroma collection
(an external network call, modelled as succeeding) and their count is
reported. -/
noncomputable def addDocuments (docs : List StoreDoc) : Except IngestError Nat :=
  if docs.length = 0 then .error .invalidDocumentsArray
  else
    let valid := docs.filter validDoc
    if valid.length = 0 then .error .noValidDocuments
    else .ok valid.length

/-- Model of `addDocumentToKnowledgeBase(documentChunks)`: reject an empty chunk
list; batch-embed the chunk texts; attach `embeddings[index]` to each
chunk; drop documents whose embedding is null; hand the survivors to the
store; report `(chunksAdded, totalChunks) = (store count, chunk count)`. -/
noncomputable def addDocumentToKnowledgeBase (chunks : List DocChunk) :
    Except IngestError (Nat × Nat) :=
  if chunks = [] then .error .invalidChunks
  else
    match embedBatch (chunks.map (fun c => c.text)) with
    | none => .error .embeddingFailed
    | some embs =>
      let documents := (List.zipWith
          (fun (c : DocChunk) e => StoreDoc.mk c.id c.text e c.filename) chunks embs).filter
          (fun d => d.embedding.isSome)
      match addDocuments documents with
      | .error e => .error e
      | .ok count => .ok (count, chunks.length)

/-- The valid store documents produced by the pipeline are exactly the
chunks with non-empty text (successful embedding) and non-empty id. -/
lemma ingest_valid_docs (chunks : List DocChunk) :
    ((List.zipWith (fun (c : DocChunk) e => StoreDoc.mk c.id c.text e c.filename) chunks
        ((chunks.map (fun c => c.text)).map embedText)).filter
        (fun d => d.embedding.isSome)).filter validDoc =
    ((chunks.filter (fun c => !(c.text == []))).filter (fun c => !(c.id == ""))).map
      (fun c => StoreDoc.mk c.id c.text (some (createSimpleEmbedding c.text)) c.filename) := by
  induction chunks with
  | nil => rfl
  | cons c rest ih =>
    by_cases ht : c.text = []
    · simp [embedText, ht, validDoc] at ih ⊢
      exact ih
    · by_cases hid : c.id = ""
      · simp [embedText, ht, hid, validDoc] at ih ⊢
        exact ih
      · simp [embedText, ht, hid, validDoc] at ih ⊢
        exact ih

/-- C5 counterexample.  A single chunk whose embedding fails (empty text,
hence a null batch-embedding result: N = 1, m = 1) does not yield success
with `totalChunks = 1`: every survivor was dropped, so the store receives
an empty array, throws `Error('Invalid documents array')` at its
`documents.length === 0` check, and the pipeline reports failure. -/
theorem C5_all_embeddings_failed :
    addDocumentToKnowledgeBase [⟨"c1", [], none⟩] = .error .invalidDocumentsArray := by
  rfl

/-- C5 amended.  Whenever at least one chunk survives (non-empty text, so
its embedding succeeds) and is valid for the store (non-empty id), the
pipeline drops exactly the failed chunks, passes the survivors to the
store, and returns success with `totalChunks` the original count and
`chunksAdded` the store's count of the valid survivors.  (With every id
non-empty this is `N - m`; when all `N` chunks fail embedding the store
instead throws `Error('Invalid documents array')` on the empty survivor
array — see the counterexample.) -/
theorem C5_partial_batch_ingest (chunks : List DocChunk)
    (hvalid : 0 < ((chunks.filter (fun c => !(c.text == []))).filter
      (fun c => !(c.id == ""))).length) :
    addDocumentToKnowledgeBase chunks =
      .ok (((chunks.filter (fun c => !(c.text == []))).filter
              (fun c => !(c.id == ""))).length,
           chunks.length) := by
  have hne : chunks ≠ [] := by
    intro h
    rw [h] at hvalid
    exact absurd hvalid (by decide)
  have hcnt : (((List.zipWith (fun (c : DocChunk) e =>
        StoreDoc.mk c.id c.text e c.filename) chunks
        ((chunks.map (fun c => c.text)).map embedText)).filter
        (fun d => d.embedding.isSome)).filter validDoc).length =
      ((chunks.filter (fun c => !(c.text == []))).filter
        (fun c => !(c.id == ""))).length := by
    rw [ingest_valid_docs chunks, List.length_map]
  have hlen : ((List.zipWith (fun (c : DocChunk) e =>
        StoreDoc.mk c.id c.text e c.filename) chunks
        ((chunks.map (fun c => c.text)).map embedText)).filter
        (fun d => d.embedding.isSome)).length ≠ 0 := by
    have hle := List.length_filter_le validDoc
      ((List.zipWith (fun (c : DocChunk) e =>
        StoreDoc.mk c.id c.text e c.filename) chunks
        ((chunks.map (fun c => c.text)).map embedText)).filter
        (fun d => d.embedding.isSome))
    omega
  have hadd : addDocuments ((List.zipWith (fun (c : DocChunk) e =>
        StoreDoc.mk c.id c.text e c.filename) chunks
        ((chunks.map (fun c => c.text)).map embedText)).filter
        (fun d => d.embedding.isSome)) =
      .ok (((chunks.filter (fun c => !(c.text == []))).filter
        (fun c => !(c.id == ""))).length) := by
    unfold addDocuments
    rw [if_neg hlen]
    dsimp only
    rw [hcnt]
    rw [if_neg (by omega)]
  unfold addDocumentToKnowledgeBase
  rw [if_neg hne]
  have htexts : chunks.map (fun c => c.text) ≠ [] := by
    simpa using hne
  unfold embedBatch
  rw [if_neg htexts]
  dsimp only
  rw [hadd]

/-- C5 amended, witness: the §8 scenario — three chunks of which exactly
the second fails embedding — reports `chunksAdded = 2, totalChunks = 3`
with success. -/
theorem C5_partial_batch_ingest_witness :
    addDocumentToKnowledgeBase
      [⟨"c1", "alpha".toList, none⟩, ⟨"c2", [], none⟩, ⟨"c3", "gamma".toList, none⟩] =
      .ok (2, 3) :=
  (C5_partial_batch_ingest
    [⟨"c1", "alpha".toList, none⟩, ⟨"c2", [], none⟩, ⟨"c3", "gamma".toList, none⟩]
    (by decide)).trans (by rfl)

/-! ## Context assembly: `prepareContext(searchResult)`
(src/unnamed/part_001 lines 169-189) -/

/-- Metadata of one stored chunk (only the filename matters here). -/
structure SearchMeta where
  filename : Option String
deriving Repr, DecidableEq

/-- A search outcome: parallel arrays of document texts, metadata and
distances, as produced by `chromaVectorStore.search`. -/
structure SearchOutcome where
  results : List (List Char)
  metadatas : List (Option SearchMeta)
  distances : List ℚ
deriving Repr, DecidableEq

/-- Model of `Math.round` on a finite value: half-up rounding, `⌊q + 1/2⌋`. -/
def jsRound (q : ℚ) : Int :=
  ⌊q + 1 / 2⌋

/-- The relevance annotation `Math.round((1 - distance) * 100)`. -/
def relevancePercent (d : ℚ) : Int :=
  jsRound ((1 - d) * 100)

/-- Model of `searchResult.metadatas[index] || {}` followed by `.filename`: a
missing array slot or a null metadata both yield no filename. -/
def effFilename (sr : SearchOutcome) (i : Nat) : Option String :=
  match sr.metadatas.getD i none with
  | some m => m.filename
  | none => none

/-- Model of `searchResult.distances[index] || 0` (an absent slot becomes 0; an
actual 0 is unchanged). -/
def distAt (sr : SearchOutcome) (i : Nat) : ℚ :=
  sr.distances.getD i 0

/-- Decimal digits of a natural number, as in JS template interpolation. -/
def natChars (n : Nat) : List Char :=
  (toString n).toList

/-- Decimal digits (with sign) of an integer. -/
def intChars (z : Int) : List Char :=
  (toString z).toList

/-- One entry of the numbered context list:
`Document ${index+1} (${relevance}% relevant` then, when the metadata
carries a truthy (non-empty) filename, `, from: ${filename}`, then
`):\n${doc}\n\n`. -/
def entryChars (sr : SearchOutcome) (i : Nat) (doc : List Char) : List Char :=
  "Document ".toList ++ natChars (i + 1) ++ " (".toList
    ++ intChars (relevancePercent (distAt sr i)) ++ "% relevant".toList
    ++ (match effFilename sr i with
        | some f => if f = "" then [] else ", from: ".toList ++ f.toList
        | none => [])
    ++ "):\n".toList ++ doc ++ "\n\n".toList

/-- The `forEach` of the source, accumulating `context += ...` left to
right over the result documents. -/
def prepareContextLoop (sr : SearchOutcome) : List (List Char) → Nat → List Char → List Char
  | [], _, acc => acc
  | doc :: rest, i, acc => prepareContextLoop sr rest (i + 1) (acc ++ entryChars sr i doc)

/-- The sentinel context for an empty result set. -/
def noDocsSentinel : List Char :=
  "No relevant documents found in the knowledge base.".toList

/-- Model of `prepareContext(searchResult)`. -/
def prepareContext (sr : SearchOutcome) : List Char :=
  if sr.results = [] then noDocsSentinel
  else prepareContextLoop sr sr.results 0 "Based on the following documents:\n\n".toList

/-- The claim's formulation of the assembled context: the sentinel for an
empty result set, otherwise the header followed by the numbered entries —
entry `i` annotated with `round((1 - distance_i) * 100)` percent relevance
and, when the metadata carries a filename, that filename. -/
def prepareContextSpec (sr : SearchOutcome) : List Char :=
  if sr.results = [] then noDocsSentinel
  else "Based on the following documents:\n\n".toList ++
    (List.flatten ((List.range sr.results.length).map
      (fun i => entryChars sr i (sr.results.getD i []))))

/-- The accumulator loop renders exactly the joined list of entries. -/
lemma prepareContextLoop_eq (sr : SearchOutcome) (docs : List (List Char)) :
    ∀ (k : Nat) (acc : List Char),
      prepareContextLoop sr docs k acc =
        acc ++ List.flatten ((List.range docs.length).map
          (fun j => entryChars sr (k + j) (docs.getD j []))) := by
  induction docs with
  | nil => intro k acc; simp [prepareContextLoop]
  | cons d rest ih =>
    intro k acc
    rw [prepareContextLoop, ih (k + 1)]
    rw [List.length_cons, List.range_succ_eq_map]
    simp only [List.map_cons, List.map_map, List.flatten_cons, Function.comp_def]
    simp only [List.getD_cons_zero, List.getD_cons_succ, Nat.add_zero, List.append_assoc]
    congr 2
    congr 1
    apply List.map_congr_left
    intro j hj
    rw [show k + 1 + j = k + (j + 1) by omega]

/-- C9.  `prepareContext` returns the literal no-documents sentinel for an
empty result set, and otherwise coincides with the claim's numbered-list
formulation (header, then for each result the entry carrying the
`round((1 - distance) * 100)` relevance annotation and the originating
filename when the metadata carries one). -/
theorem C9_prepare_context (sr : SearchOutcome) :
    (sr.results = [] → prepareContext sr = noDocsSentinel) ∧
    prepareContext sr = prepareContextSpec sr := by
  constructor
  · intro h
    unfold prepareContext
    rw [if_pos h]
  · unfold prepareContext prepareContextSpec
    by_cases h : sr.results = []
    · rw [if_pos h, if_pos h]
    · rw [if_neg h, if_neg h, prepareContextLoop_eq]
      simp

/-- C9 witness: the empty result set yields the sentinel, and a concrete
one-document result set matches the numbered-list formulation. -/
theorem C9_prepare_context_witness :
    prepareContext ⟨[], [], []⟩ = noDocsSentinel ∧
    prepareContext ⟨["alpha doc".toList], [some ⟨some "notes.pdf"⟩], [1 / 10]⟩ =
      prepareContextSpec ⟨["alpha doc".toList], [some ⟨some "notes.pdf"⟩], [1 / 10]⟩ :=
  ⟨(C9_prepare_context ⟨[], [], []⟩).1 rfl,
   (C9_prepare_context ⟨["alpha doc".toList], [some ⟨some "notes.pdf"⟩], [1 / 10]⟩).2⟩

/-! ## Task orchestration: `WebhookService` (src/lib/webhooks.js) -/

/-- Outcome of the waiting phase of `processLongRunningTask`, carrying the
wall-clock milliseconds elapsed since the trigger when the loop exits.
Time is idealized discretely: each loop iteration costs exactly its
2000 ms sleep and every other operation costs 0 ms. -/
inductive TaskWaitOutcome where
  | completed (elapsed : Nat)
  | timedOut (elapsed : Nat)
deriving Repr, DecidableEq

/-- The polling loop of `processLongRunningTask` (src/lib/webhooks.js
109-146): `while (!taskCompleted && (Date.now() - startTime) <
this.taskTimeout)` — each iteration sleeps 2000 ms and then marks the
demo-simulated completion once more than 5000 ms have elapsed; after the
loop, a still-uncompleted task raises `Error('Task timeout exceeded')`
(the `TimeoutError`).  `fuel` bounds the modelled iterations; `none`
means the fuel ran out before the loop exited. -/
def pollLoopF (timeout : Nat) : Nat → Bool → Nat → Option TaskWaitOutcome
  | 0, _, _ => none
  | f + 1, completed, elapsed =>
    if completed = false ∧ elapsed < timeout then
      pollLoopF timeout f (decide (elapsed + 2000 > 5000)) (elapsed + 2000)
    else if completed then some (.completed elapsed) else some (.timedOut elapsed)

/-- The waiting phase of `processLongRunningTask` under a configured
`timeout`, started at elapsed time 0 with the task not completed. -/
def processWait (timeout fuel : Nat) : Option TaskWaitOutcome :=
  pollLoopF timeout fuel false 0

/-- C4 counterexample.  With a configured timeout of 100 ms the wait does
not stop within 100–150 ms: the loop sleeps a full 2000 ms poll interval
before re-checking the guard, so the timeout error is raised at 2000 ms
elapsed. -/
theorem C4_timeout_not_within_150ms :
    processWait 100 10 = some (.timedOut 2000) ∧ ¬ (100 ≤ 2000 ∧ 2000 ≤ 150) := by
  exact ⟨by decide, by decide⟩

/-- C4 amended.  For any timeout `t` with `0 < t ≤ 4000` (so that the
demo-simulated completion at 6000 ms cannot fire first), the wait stops
with the timeout error at elapsed time `2000 · ⌈t / 2000⌉` — the first
multiple of the 2000 ms poll interval at or after the timeout — which is
never before the timeout has elapsed but, for `t = 100`, is 2000 ms, far
beyond the claimed 100–150 ms window. -/
theorem C4_timeout_at_poll_interval (t : Nat) (h1 : 0 < t) (h2 : t ≤ 4000) :
    processWait t 3 = some (.timedOut (2000 * ((t + 1999) / 2000))) ∧
    t ≤ 2000 * ((t + 1999) / 2000) := by
  by_cases hle : t ≤ 2000
  · have hdiv : (t + 1999) / 2000 = 1 := by omega
    rw [hdiv]
    refine ⟨?_, by omega⟩
    unfold processWait pollLoopF
    rw [if_pos ⟨rfl, h1⟩]
    show pollLoopF t 2 false 2000 = some (.timedOut (2000 * 1))
    unfold pollLoopF
    rw [if_neg (fun h => absurd h.2 (by omega))]
    rfl
  · have hdiv : (t + 1999) / 2000 = 2 := by omega
    rw [hdiv]
    refine ⟨?_, by omega⟩
    unfold processWait pollLoopF
    rw [if_pos ⟨rfl, h1⟩]
    show pollLoopF t 2 false 2000 = some (.timedOut (2000 * 2))
    unfold pollLoopF
    rw [if_pos ⟨rfl, by omega⟩]
    show pollLoopF t 1 false 4000 = some (.timedOut (2000 * 2))
    unfold pollLoopF
    rw [if_neg (fun h => absurd h.2 (by omega))]
    rfl

/-- C4 amended, witness: timeout 100 ms ends with the timeout error at
2000 ms ≥ 100 ms. -/
theorem C4_timeout_at_poll_interval_witness :
    processWait 100 3 = some (.timedOut (2000 * ((100 + 1999) / 2000))) ∧
    100 ≤ 2000 * ((100 + 1999) / 2000) :=
  C4_timeout_at_poll_interval 100 (by decide) (by decide)

/-! ## Long-running-task id flow
(`handleLongRunningTask`, src/app/api/chat/route.js 120-151;
`triggerN8nTask` and `generateTaskId`, src/lib/webhooks.js 10-50, 170-172)

`generateTaskId` returns `task_${Date.now()}_${random}`; the tokens are
abstracted as an oracle `g : Nat → Nat` mapping the call order to the id
drawn by that call. -/

/-- The task payload built by `handleLongRunningTask` (only the fields
relevant to the id flow; the source object literal `{message, timestamp,
type}` carries no `taskId`, and nothing ever assigns one to it). -/
structure TaskData where
  message : String
  taskId : Option Nat
deriving Repr, DecidableEq

/-- Model of `triggerN8nTask`'s envelope id `taskData.taskId ||
this.generateTaskId()`: the caller-supplied id when present, otherwise the
next draw from the generator (returning the advanced call counter). -/
def triggerEnvelopeId (g : Nat → Nat) (k : Nat) (td : TaskData) : Nat × Nat :=
  match td.taskId with
  | some i => (i, k)
  | none => (g k, k + 1)

/-- The three observable ids of one `handleLongRunningTask` request. -/
structure LongTaskIdFlow where
  payloadTaskId : Option Nat
  envelopeTaskId : Nat
  responseTaskId : Nat
deriving Repr, DecidableEq

/-- The id flow of `handleLongRunningTask(message)`: build the payload
without a task id; synchronously start `processLongRunningTask`, whose
`triggerN8nTask` draws the envelope id (`taskData.taskId ||
generateTaskId()`) before its first `await`; then answer the HTTP request
with `taskData.taskId || webhookService.generateTaskId()` — a second,
separate draw, since `taskData.taskId` is still absent. -/
def handleLongRunningTaskIds (g : Nat → Nat) (k : Nat) (message : String) :
    LongTaskIdFlow :=
  let taskData : TaskData := ⟨message, none⟩
  let trig := triggerEnvelopeId g k taskData
  let responseId :=
    match taskData.taskId with
    | some i => i
    | none => g trig.2
  ⟨taskData.taskId, trig.1, responseId⟩

/-- C10.  For every long-running chat request: the payload handed to the
background orchestration carries no task id, the trigger envelope uses the
orchestration's own first generator draw, and the id returned to the
client is a second, independent draw — so whenever the generator never
repeats an id, the client's id is not the triggered task's id. -/
theorem C10_response_id_independent (g : Nat → Nat) (k : Nat) (message : String) :
    (handleLongRunningTaskIds g k message).payloadTaskId = none ∧
    (handleLongRunningTaskIds g k message).envelopeTaskId = g k ∧
    (handleLongRunningTaskIds g k message).responseTaskId = g (k + 1) ∧
    (Function.Injective g →
      (handleLongRunningTaskIds g k message).responseTaskId ≠
        (handleLongRunningTaskIds g k message).envelopeTaskId) := by
  refine ⟨rfl, rfl, rfl, fun hg h => ?_⟩
  have : k + 1 = k := hg h
  omega

/-- C10 witness: with the identity generator starting at call 0, the
response id 1 differs from the envelope id 0 and the payload has no id. -/
theorem C10_response_id_independent_witness :
    (handleLongRunningTaskIds id 0 "hello").payloadTaskId = none ∧
    (handleLongRunningTaskIds id 0 "hello").responseTaskId ≠
      (handleLongRunningTaskIds id 0 "hello").envelopeTaskId :=
  ⟨(C10_response_id_independent id 0 "hello").1,
   (C10_response_id_independent id 0 "hello").2.2.2 (fun _ _ h => h)⟩

end Isha
